import Mathlib

/-!
Verification development for the mastra email-processing workflow
(src/email-ai-workflow/src/mastra/workflows/emailProcessing.ts and
src/email-ai-workflow/src/mastra/tools/calendarTools.ts, plus the Gmail
tools in src/mastra/tools/gmailTools.ts).

The TypeScript pipeline is shallowly embedded: every external call (Gmail
API, Calendar API, language-model agent) is represented by an outcome
oracle supplied through an environment record, and each workflow step's
`execute` body is translated into a pure Lean function over lists.
Thrown JavaScript exceptions are modelled with `Except String`.
-/

/-- An email as carried through the workflow steps (the simplified object
built in fetchEmailsStep: id, subject?, from, body, threadId?).  The
source field `from` is a Lean keyword, so it is named `fromAddr` here. -/
structure EmailMessage where
  id : String
  subject : Option String
  fromAddr : String
  body : String
  threadId : Option String
deriving DecidableEq

/-- The four-way intent enum of EmailIntentSchema in types/email.ts:
z.enum(['reply', 'meeting', 'archive', 'human_review']). -/
inductive Intent
  | reply
  | meeting
  | archive
  | human_review
deriving DecidableEq

/-- The string tag carried by each enum member (the workflow schemas store
the intent as a plain string). -/
def Intent.toString : Intent → String
  | Intent.reply => "reply"
  | Intent.meeting => "meeting"
  | Intent.archive => "archive"
  | Intent.human_review => "human_review"

/-- A successful structured-output classification: intent enum plus
reasoning string (the simplified EmailIntentSchema). -/
structure EmailIntent where
  intent : Intent
  reasoning : String
deriving DecidableEq

/-- An email together with the intent fields attached by analyzeIntentStep
(the emailsWithIntent array elements). -/
structure EmailWithIntent where
  id : String
  subject : Option String
  fromAddr : String
  body : String
  threadId : Option String
  intent : String
  reasoning : String
deriving DecidableEq

/-- A handler outcome record: emailId, action tag, status string, exactly
as pushed by the four action steps. -/
structure ActionResult where
  emailId : String
  action : String
  status : String
deriving DecidableEq

/-- The workflow's final output record produced by summaryStep. -/
structure RunSummary where
  totalProcessed : Nat
  summary : String
deriving DecidableEq

/-- State of the Gmail mailbox and of the list call used by
fetchUnreadEmailsTool: the server-side unread messages (most recent
first) and whether the fetch (authorize or any Gmail API call inside the
tool) throws. -/
structure MailEnv where
  unread : List EmailMessage
  listFails : Bool

/-- JavaScript `x || d` on an optional numeric argument: undefined and 0
both fall back to the default (gmailTools.ts: `maxResults: context.maxResults || 10`). -/
def jsOrDefault (x : Option Nat) (d : Nat) : Nat :=
  match x with
  | some n => if n = 0 then d else n
  | none => d

/-- fetchUnreadEmailsTool.execute (gmailTools.ts): authorize, then list at
most `maxResults || 10` unread messages and fetch each one.  Any thrown
error inside the tool surfaces as `Except.error`; otherwise the tool
returns the fetched emails and their count. -/
def fetchUnreadEmailsTool (env : MailEnv) (maxResults : Option Nat) :
    Except String (List EmailMessage × Nat) :=
  if env.listFails then Except.error "fetch failed"
  else
    let msgs := env.unread.take (jsOrDefault maxResults 10)
    Except.ok (msgs, msgs.length)

/-- fetchEmailsStep.execute (emailProcessing.ts lines 31-53): call the
fetch tool inside try/catch; on any error return an empty email list. -/
def fetchEmailsStep (env : MailEnv) (maxEmails : Option Nat) : List EmailMessage :=
  match fetchUnreadEmailsTool env maxEmails with
  | Except.ok r => r.1
  | Except.error _ => []

/-- The per-email body of the analyzeIntentStep loop (emailProcessing.ts
lines 87-109): on success attach the classified intent tag and reasoning;
on a thrown classification error attach intent 'human_review' with
reasoning 'Failed to analyze intent'. -/
def classifyEmail (classify : EmailMessage → Except String EmailIntent)
    (email : EmailMessage) : EmailWithIntent :=
  match classify email with
  | Except.ok r =>
      { id := email.id, subject := email.subject, fromAddr := email.fromAddr,
        body := email.body, threadId := email.threadId,
        intent := r.intent.toString, reasoning := r.reasoning }
  | Except.error _ =>
      { id := email.id, subject := email.subject, fromAddr := email.fromAddr,
        body := email.body, threadId := email.threadId,
        intent := "human_review", reasoning := "Failed to analyze intent" }

/-- analyzeIntentStep.execute (emailProcessing.ts lines 84-113): classify
each fetched email in order, isolating per-message failures. -/
def analyzeIntentStep (classify : EmailMessage → Except String EmailIntent)
    (emails : List EmailMessage) : List EmailWithIntent :=
  emails.map (classifyEmail classify)

/-- Outcome of one markEmailAsReadTool / archiveEmailTool invocation:
`ok` (Gmail modify succeeds), `apiError` (the modify call fails; the tool
catches it internally), `thrown` (authorize() throws before the tool's
try block, so the tool call itself throws). -/
inductive CallOutcome
  | ok
  | apiError
  | thrown
deriving DecidableEq

/-- markEmailAsReadTool.execute (gmailTools.ts lines 210-228): authorize
(outside any catch, so its failure is thrown to the caller), then modify
inside try/catch returning success true/false. -/
def markEmailAsReadTool : CallOutcome → Except String Bool
  | CallOutcome.ok => Except.ok true
  | CallOutcome.apiError => Except.ok false
  | CallOutcome.thrown => Except.error "authorize failed"

/-- archiveEmailTool.execute (gmailTools.ts lines 240-258): same shape as
markEmailAsReadTool (authorize may throw; modify errors are caught and
reported as success false). -/
def archiveEmailTool : CallOutcome → Except String Bool
  | CallOutcome.ok => Except.ok true
  | CallOutcome.apiError => Except.ok false
  | CallOutcome.thrown => Except.error "authorize failed"

/-- replyActionStep.execute (emailProcessing.ts lines 141-182): filter the
classified emails to intent 'reply'; for each, the gmailAgent call either
succeeds (reply_sent/success) or throws and is caught (reply_failed/error). -/
def replyActionStep (replyOk : EmailWithIntent → Bool)
    (emailsWithIntent : List EmailWithIntent) : List ActionResult :=
  (emailsWithIntent.filter (fun e => e.intent = "reply")).map (fun e =>
    if replyOk e then ⟨e.id, "reply_sent", "success"⟩
    else ⟨e.id, "reply_failed", "error"⟩)

/-- meetingActionStep.execute (emailProcessing.ts lines 211-259): filter
to intent 'meeting'; for each, the calendarAgent call and the
mark-as-read call run inside try/catch; success pushes
meeting_processed/success, any thrown error pushes meeting_failed/error.
(The tool's returned success flag is ignored by the step.) -/
def meetingActionStep (agentOk : EmailWithIntent → Bool)
    (markRead : EmailWithIntent → CallOutcome)
    (emailsWithIntent : List EmailWithIntent) : List ActionResult :=
  (emailsWithIntent.filter (fun e => e.intent = "meeting")).map (fun e =>
    if agentOk e then
      match markEmailAsReadTool (markRead e) with
      | Except.ok _ => ⟨e.id, "meeting_processed", "success"⟩
      | Except.error _ => ⟨e.id, "meeting_failed", "error"⟩
    else ⟨e.id, "meeting_failed", "error"⟩)

/-- archiveActionStep.execute (emailProcessing.ts lines 288-321): filter
to intent 'archive'; each archiveEmailTool call runs inside try/catch; a
thrown error pushes archive_failed/error, otherwise archived/success
(regardless of the tool's returned success flag). -/
def archiveActionStep (archiveCall : EmailWithIntent → CallOutcome)
    (emailsWithIntent : List EmailWithIntent) : List ActionResult :=
  (emailsWithIntent.filter (fun e => e.intent = "archive")).map (fun e =>
    match archiveEmailTool (archiveCall e) with
    | Except.ok _ => ⟨e.id, "archived", "success"⟩
    | Except.error _ => ⟨e.id, "archive_failed", "error"⟩)

/-- The loop body of humanReviewActionStep (emailProcessing.ts lines
353-369).  There is no try/catch in this step: if the mark-as-read tool
call throws, the whole step throws and every result accumulated so far is
discarded; otherwise flagged_for_review/success is pushed. -/
def humanReviewLoop (markRead : EmailWithIntent → CallOutcome) :
    List EmailWithIntent → Except String (List ActionResult)
  | [] => Except.ok []
  | e :: rest =>
      match markEmailAsReadTool (markRead e) with
      | Except.ok _ =>
          match humanReviewLoop markRead rest with
          | Except.ok rs => Except.ok (⟨e.id, "flagged_for_review", "success"⟩ :: rs)
          | Except.error msg => Except.error msg
      | Except.error msg => Except.error msg

/-- humanReviewActionStep.execute (emailProcessing.ts lines 349-373):
filter to intent 'human_review' and run the uncaught mark-as-read loop. -/
def humanReviewActionStep (markRead : EmailWithIntent → CallOutcome)
    (emailsWithIntent : List EmailWithIntent) : Except String (List ActionResult) :=
  humanReviewLoop markRead (emailsWithIntent.filter (fun e => e.intent = "human_review"))

/-- One step of the summaryStep reduce over action tags:
`acc[r.action] = (acc[r.action] || 0) + 1` on a JavaScript object whose
keys keep insertion order. -/
def bumpCount (acc : List (String × Nat)) (a : String) : List (String × Nat) :=
  if acc.any (fun p => p.1 = a) then
    acc.map (fun p => if p.1 = a then (p.1, p.2 + 1) else p)
  else acc ++ [(a, 1)]

/-- The actionCounts object built in summaryStep (emailProcessing.ts
lines 431-434), as an insertion-ordered association list. -/
def actionCounts (results : List ActionResult) : List (String × Nat) :=
  results.foldl (fun acc r => bumpCount acc r.action) []

/-- Lookup in the actionCounts object (a missing key counts as 0). -/
def countOf (counts : List (String × Nat)) (a : String) : Nat :=
  match counts.find? (fun p => p.1 = a) with
  | some p => p.2
  | none => 0

/-- summaryStep.execute applied to the flattened results
(emailProcessing.ts lines 421-449): total count plus the digest string
built from Object.entries of the action counts. -/
def summaryOf (allResults : List ActionResult) : RunSummary :=
  { totalProcessed := allResults.length,
    summary := "Processed " ++ toString allResults.length ++ " emails: " ++
      String.intercalate ", "
        ((actionCounts allResults).map (fun p => toString p.2 ++ " " ++ p.1)) }

/-- All external-call outcomes one run of emailProcessingWorkflow can
observe: the mailbox, the classifier, and the per-handler collaborator
outcomes. -/
structure WorkflowEnv where
  mail : MailEnv
  classify : EmailMessage → Except String EmailIntent
  replyOk : EmailWithIntent → Bool
  meetingAgentOk : EmailWithIntent → Bool
  meetingMarkRead : EmailWithIntent → CallOutcome
  archiveCall : EmailWithIntent → CallOutcome
  reviewMarkRead : EmailWithIntent → CallOutcome

/-- The list of classified messages entering the Stage-3 branch step:
fetch followed by intent analysis. -/
def classifiedEmails (env : WorkflowEnv) (maxEmails : Option Nat) : List EmailWithIntent :=
  analyzeIntentStep env.classify (fetchEmailsStep env.mail maxEmails)

/-- The flattened ActionResult list reaching summaryStep: the four
parallel branch steps joined in the fixed order reply, meeting, archive,
human-review (summaryStep lines 423-428).  If the human-review branch
throws, the parallel join fails and the whole run errors. -/
def runResults (env : WorkflowEnv) (maxEmails : Option Nat) :
    Except String (List ActionResult) :=
  match humanReviewActionStep env.reviewMarkRead (classifiedEmails env maxEmails) with
  | Except.error msg => Except.error msg
  | Except.ok reviewResults =>
      Except.ok (replyActionStep env.replyOk (classifiedEmails env maxEmails) ++
        meetingActionStep env.meetingAgentOk env.meetingMarkRead (classifiedEmails env maxEmails) ++
        archiveActionStep env.archiveCall (classifiedEmails env maxEmails) ++ reviewResults)

/-- emailProcessingWorkflow (emailProcessing.ts lines 453-475): fetch,
classify, the four parallel branches, then summarize. -/
def runPipeline (env : WorkflowEnv) (maxEmails : Option Nat) :
    Except String RunSummary :=
  (runResults env maxEmails).map summaryOf

/-! ### Helper lemmas about the pipeline stages -/

/-- Every message leaving analyzeIntentStep carries one of the four
intent tags: a successful classification is schema-constrained to the
enum, and the failure path assigns human_review. -/
lemma intent_mem_four (classify : EmailMessage → Except String EmailIntent)
    (emails : List EmailMessage) (e : EmailWithIntent)
    (he : e ∈ analyzeIntentStep classify emails) :
    e.intent = "reply" ∨ e.intent = "meeting" ∨ e.intent = "archive" ∨
      e.intent = "human_review" := by
  rcases List.mem_map.mp he with ⟨x, _, hx⟩
  subst hx
  unfold classifyEmail
  cases classify x with
  | ok r => obtain ⟨i, rs⟩ := r; cases i <;> simp [Intent.toString]
  | error msg => simp

/-- The four intent filters partition any list whose members all carry
one of the four tags. -/
lemma count_partition (l : List EmailWithIntent)
    (h : ∀ e ∈ l, e.intent = "reply" ∨ e.intent = "meeting" ∨ e.intent = "archive" ∨
      e.intent = "human_review") :
    (l.filter (fun e => e.intent = "reply")).length +
      (l.filter (fun e => e.intent = "meeting")).length +
      (l.filter (fun e => e.intent = "archive")).length +
      (l.filter (fun e => e.intent = "human_review")).length = l.length := by
  induction l with
  | nil => rfl
  | cons e rest ih =>
      have he := h e (List.mem_cons_self e rest)
      have ih' := ih (fun x hx => h x (List.mem_cons_of_mem e hx))
      rcases he with h1 | h1 | h1 | h1 <;>
        simp [List.filter_cons, h1] <;> omega

/-- When the human-review loop returns normally it yields one result per
input email. -/
lemma humanReviewLoop_ok_length (markRead : EmailWithIntent → CallOutcome)
    (l : List EmailWithIntent) (rs : List ActionResult)
    (h : humanReviewLoop markRead l = Except.ok rs) : rs.length = l.length := by
  induction l generalizing rs with
  | nil =>
      have h' : (Except.ok [] : Except String (List ActionResult)) = Except.ok rs := h
      cases h'
      rfl
  | cons e rest ih =>
      unfold humanReviewLoop at h
      cases hm : markEmailAsReadTool (markRead e) with
      | error msg => rw [hm] at h; exact absurd h (by simp)
      | ok b =>
          rw [hm] at h
          cases hr : humanReviewLoop markRead rest with
          | error msg => rw [hr] at h; exact absurd h (by simp)
          | ok rs' =>
              rw [hr] at h
              have hcons : (⟨e.id, "flagged_for_review", "success"⟩ : ActionResult) :: rs' = rs := by
                simpa using h
              subst hcons
              simp [ih rs' hr]

/-- Every result the human-review loop returns is a
flagged_for_review/success record. -/
lemma humanReviewLoop_ok_mem (markRead : EmailWithIntent → CallOutcome)
    (l : List EmailWithIntent) (rs : List ActionResult)
    (h : humanReviewLoop markRead l = Except.ok rs) :
    ∀ r ∈ rs, r.action = "flagged_for_review" ∧ r.status = "success" := by
  induction l generalizing rs with
  | nil =>
      have h' : (Except.ok [] : Except String (List ActionResult)) = Except.ok rs := h
      cases h'
      intro r hr
      exact absurd hr (by simp)
  | cons e rest ih =>
      unfold humanReviewLoop at h
      cases hm : markEmailAsReadTool (markRead e) with
      | error msg => rw [hm] at h; exact absurd h (by simp)
      | ok b =>
          rw [hm] at h
          cases hr : humanReviewLoop markRead rest with
          | error msg => rw [hr] at h; exact absurd h (by simp)
          | ok rs' =>
              rw [hr] at h
              have hcons : (⟨e.id, "flagged_for_review", "success"⟩ : ActionResult) :: rs' = rs := by
                simpa using h
              subst hcons
              intro r hr'
              rcases List.mem_cons.mp hr' with h0 | h0
              · subst h0; exact ⟨rfl, rfl⟩
              · exact ih rs' hr r h0

/-- Whenever a run completes, its total equals the number of classified
messages that entered the branch stage. -/
lemma total_eq_classified (env : WorkflowEnv) (maxEmails : Option Nat)
    (s : RunSummary) (h : runPipeline env maxEmails = Except.ok s) :
    s.totalProcessed = (classifiedEmails env maxEmails).length := by
  unfold runPipeline runResults at h
  cases hh : humanReviewActionStep env.reviewMarkRead (classifiedEmails env maxEmails) with
  | error msg => rw [hh] at h; exact absurd h (by simp [Except.map])
  | ok reviewResults =>
      rw [hh] at h
      simp only [Except.map, Except.ok.injEq] at h
      have hs : s = summaryOf (replyActionStep env.replyOk (classifiedEmails env maxEmails) ++
          meetingActionStep env.meetingAgentOk env.meetingMarkRead (classifiedEmails env maxEmails) ++
          archiveActionStep env.archiveCall (classifiedEmails env maxEmails) ++ reviewResults) := h.symm
      subst hs
      have hrev := humanReviewLoop_ok_length env.reviewMarkRead
        ((classifiedEmails env maxEmails).filter (fun e => e.intent = "human_review")) reviewResults hh
      have hpart := count_partition (classifiedEmails env maxEmails)
        (fun e he => intent_mem_four env.classify (fetchEmailsStep env.mail maxEmails) e he)
      simp only [summaryOf, replyActionStep, meetingActionStep, archiveActionStep,
        List.length_append, List.length_map]
      omega

/-! ### Concrete runs used as witnesses and scenario checks -/

/-- Scenario A of the spec: three unread messages that classify as reply,
archive and meeting, with every collaborator call succeeding. -/
def scenarioAEnv : WorkflowEnv :=
  { mail := { unread := [⟨"e1", some "hi", "a@x", "question", none⟩,
                         ⟨"e2", some "fyi", "b@x", "newsletter", none⟩,
                         ⟨"e3", some "meet", "c@x", "can we meet", none⟩],
              listFails := false },
    classify := fun e =>
      if e.id = "e1" then Except.ok ⟨Intent.reply, "asks a question"⟩
      else if e.id = "e2" then Except.ok ⟨Intent.archive, "informational"⟩
      else Except.ok ⟨Intent.meeting, "meeting request"⟩,
    replyOk := fun _ => true,
    meetingAgentOk := fun _ => true,
    meetingMarkRead := fun _ => CallOutcome.ok,
    archiveCall := fun _ => CallOutcome.ok,
    reviewMarkRead := fun _ => CallOutcome.ok }

/-- The flattened results of scenario A, in the summaryStep join order
reply ++ meeting ++ archive ++ human-review. -/
def scenarioAResults : List ActionResult :=
  [⟨"e1", "reply_sent", "success"⟩,
   ⟨"e3", "meeting_processed", "success"⟩,
   ⟨"e2", "archived", "success"⟩]

/-- The RunSummary scenario A produces. -/
def scenarioASummary : RunSummary :=
  ⟨3, "Processed 3 emails: 1 reply_sent, 1 meeting_processed, 1 archived"⟩

/-! ### C1 -/

/-- C1: for every run that returns a RunSummary, totalProcessed equals
the number of ActionResults produced by the four handler branches, which
equals the number of classified messages that entered the branch stage —
no message with one of the four intents is lost between classify and
summarize. -/
theorem totalProcessed_counts_every_classified_message (env : WorkflowEnv)
    (maxEmails : Option Nat) (s : RunSummary) (rs : List ActionResult)
    (hr : runResults env maxEmails = Except.ok rs)
    (h : runPipeline env maxEmails = Except.ok s) :
    s.totalProcessed = rs.length ∧
      rs.length = (classifiedEmails env maxEmails).length := by
  have hs : s = summaryOf rs := by
    unfold runPipeline at h
    rw [hr] at h
    simpa [Except.map] using h.symm
  have ht := total_eq_classified env maxEmails s h
  subst hs
  exact ⟨rfl, by simpa [summaryOf] using ht⟩

/-- Witness for C1: scenario A completes with 3 results for 3 classified
messages. -/
theorem totalProcessed_counts_every_classified_message_witness :
    (runResults scenarioAEnv (some 3) = Except.ok scenarioAResults ∧
      runPipeline scenarioAEnv (some 3) = Except.ok scenarioASummary) ∧
    (scenarioASummary.totalProcessed = scenarioAResults.length ∧
      scenarioAResults.length = (classifiedEmails scenarioAEnv (some 3)).length) :=
  ⟨⟨rfl, rfl⟩,
    totalProcessed_counts_every_classified_message scenarioAEnv (some 3)
      scenarioASummary scenarioAResults rfl rfl⟩

/-! ### C2 -/

/-- C2: every classified message matches the filter of exactly one of the
four handler steps — the per-intent groups are pairwise disjoint and
cover all classified messages, and membership is decided solely by the
intent tag. -/
theorem exactly_one_handler_per_intent (env : WorkflowEnv) (maxEmails : Option Nat)
    (e : EmailWithIntent) (he : e ∈ classifiedEmails env maxEmails) :
    (["reply", "meeting", "archive", "human_review"].countP
      (fun t => e.intent = t)) = 1 := by
  rcases intent_mem_four env.classify (fetchEmailsStep env.mail maxEmails) e he with
    h1 | h1 | h1 | h1 <;> rw [List.countP] <;> simp [h1, List.countP.go]

/-- Witness for C2: the classified reply message of scenario A matches
exactly one handler filter. -/
theorem exactly_one_handler_per_intent_witness :
    (⟨"e1", some "hi", "a@x", "question", none, "reply", "asks a question"⟩ : EmailWithIntent)
        ∈ classifiedEmails scenarioAEnv (some 3) ∧
    (["reply", "meeting", "archive", "human_review"].countP
      (fun t => (⟨"e1", some "hi", "a@x", "question", none, "reply",
        "asks a question"⟩ : EmailWithIntent).intent = t)) = 1 :=
  ⟨by decide,
    exactly_one_handler_per_intent scenarioAEnv (some 3) _ (by decide)⟩

/-! ### C3 -/

/-- C3: when the Gmail fetch throws, fetchEmailsStep degrades to an empty
batch, all later stages run on it, and the run still returns a RunSummary
with totalProcessed 0 and no error past the run boundary. -/
theorem fetch_failure_yields_empty_run (env : WorkflowEnv) (maxEmails : Option Nat)
    (h : env.mail.listFails = true) :
    runPipeline env maxEmails = Except.ok ⟨0, "Processed 0 emails: "⟩ := by
  have hf : fetchEmailsStep env.mail maxEmails = [] := by
    simp [fetchEmailsStep, fetchUnreadEmailsTool, h]
  have hc : classifiedEmails env maxEmails = [] := by
    simp [classifiedEmails, analyzeIntentStep, hf]
  have hr : runResults env maxEmails = Except.ok [] := by
    simp [runResults, hc, humanReviewActionStep, humanReviewLoop,
      replyActionStep, meetingActionStep, archiveActionStep]
  simp [runPipeline, hr, Except.map]
  rfl

/-- A run whose Gmail fetch fails. -/
def fetchFailEnv : WorkflowEnv :=
  { mail := { unread := [⟨"e1", some "hi", "a@x", "question", none⟩], listFails := true },
    classify := fun _ => Except.ok ⟨Intent.reply, "asks"⟩,
    replyOk := fun _ => true,
    meetingAgentOk := fun _ => true,
    meetingMarkRead := fun _ => CallOutcome.ok,
    archiveCall := fun _ => CallOutcome.ok,
    reviewMarkRead := fun _ => CallOutcome.ok }

/-- Witness for C3: the concrete failed-fetch run reports zero processed
and exits cleanly. -/
theorem fetch_failure_yields_empty_run_witness :
    fetchFailEnv.mail.listFails = true ∧
    runPipeline fetchFailEnv (some 5) = Except.ok ⟨0, "Processed 0 emails: "⟩ :=
  ⟨rfl, fetch_failure_yields_empty_run fetchFailEnv (some 5) rfl⟩

/-! ### C4 -/

/-- A classifier that throws on every message. -/
def failingClassifier : EmailMessage → Except String EmailIntent :=
  fun _ => Except.error "model timeout"

/-- A single concrete message whose classification fails. -/
def c4Email : EmailMessage := ⟨"m1", some "help", "x@y.z", "please advise", none⟩

/-- Counterexample for C4: at a concrete message whose classification
call fails, the attached reasoning is the fixed string
'Failed to analyze intent'; no string of the claimed form
'classification failed: cause' matches it, since 'classification failed'
is not a prefix of it. -/
theorem classification_failure_reasoning_counterexample :
    (analyzeIntentStep failingClassifier [c4Email]).map (fun e => e.reasoning) =
      ["Failed to analyze intent"] ∧
    (("classification failed".data).isPrefixOf
      ("Failed to analyze intent".data)) = false := by
  exact ⟨rfl, by decide⟩

/-- C4 as amended: a failed classification keeps the run going and
assigns intent human_review with the fixed reasoning
'Failed to analyze intent' (not 'classification failed: cause'), while
every successfully classified message keeps its own result. -/
theorem classification_failure_defaults_to_human_review
    (classify : EmailMessage → Except String EmailIntent)
    (emails : List EmailMessage) (e : EmailMessage) (he : e ∈ emails)
    (err : String) (hf : classify e = Except.error err) :
    (analyzeIntentStep classify emails).length = emails.length ∧
    (⟨e.id, e.subject, e.fromAddr, e.body, e.threadId, "human_review",
      "Failed to analyze intent"⟩ : EmailWithIntent) ∈ analyzeIntentStep classify emails ∧
    (∀ e2 ∈ emails, ∀ r : EmailIntent, classify e2 = Except.ok r →
      (⟨e2.id, e2.subject, e2.fromAddr, e2.body, e2.threadId, r.intent.toString,
        r.reasoning⟩ : EmailWithIntent) ∈ analyzeIntentStep classify emails) := by
  refine ⟨by simp [analyzeIntentStep], ?_, ?_⟩
  · refine List.mem_map.mpr ⟨e, he, ?_⟩
    simp [classifyEmail, hf]
  · intro e2 he2 r hr
    refine List.mem_map.mpr ⟨e2, he2, ?_⟩
    simp [classifyEmail, hr]

/-- Witness for C4's amended theorem at a concrete failing input. -/
theorem classification_failure_defaults_to_human_review_witness :
    (c4Email ∈ [c4Email] ∧ failingClassifier c4Email = Except.error "model timeout") ∧
    ((analyzeIntentStep failingClassifier [c4Email]).length = [c4Email].length ∧
      (⟨c4Email.id, c4Email.subject, c4Email.fromAddr, c4Email.body, c4Email.threadId,
        "human_review", "Failed to analyze intent"⟩ : EmailWithIntent)
          ∈ analyzeIntentStep failingClassifier [c4Email] ∧
      (∀ e2 ∈ [c4Email], ∀ r : EmailIntent, failingClassifier e2 = Except.ok r →
        (⟨e2.id, e2.subject, e2.fromAddr, e2.body, e2.threadId, r.intent.toString,
          r.reasoning⟩ : EmailWithIntent) ∈ analyzeIntentStep failingClassifier [c4Email])) :=
  ⟨⟨by decide, rfl⟩,
    classification_failure_defaults_to_human_review failingClassifier [c4Email]
      c4Email (by decide) "model timeout" rfl⟩

/-! ### C5 -/

/-- A mailbox with one unread message and fully succeeding collaborators. -/
def c5Env : WorkflowEnv :=
  { mail := { unread := [⟨"m1", some "news", "a@b", "weekly digest", none⟩],
              listFails := false },
    classify := fun _ => Except.ok ⟨Intent.archive, "newsletter"⟩,
    replyOk := fun _ => true,
    meetingAgentOk := fun _ => true,
    meetingMarkRead := fun _ => CallOutcome.ok,
    archiveCall := fun _ => CallOutcome.ok,
    reviewMarkRead := fun _ => CallOutcome.ok }

/-- Counterexample for C5: with maxEmails = 0 the fetch limit falls back
to 10 (JavaScript `maxResults || 10` treats 0 as absent), so a run with
maxEmails = 0 still processes the unread message: totalProcessed = 1,
not 0. -/
theorem maxEmails_zero_counterexample :
    runPipeline c5Env (some 0) = Except.ok ⟨1, "Processed 1 emails: 1 archived"⟩ ∧
    ¬ (1 : Nat) ≤ 0 :=
  ⟨rfl, by decide⟩

/-- The batch leaving fetchEmailsStep is bounded by the effective fetch
limit `maxResults || 10`. -/
lemma fetchEmailsStep_length_le (env : MailEnv) (maxEmails : Option Nat) :
    (fetchEmailsStep env maxEmails).length ≤ jsOrDefault maxEmails 10 := by
  unfold fetchEmailsStep fetchUnreadEmailsTool
  by_cases h : env.listFails <;> simp [h, List.length_take]

/-- C5 as amended: for every maxEmails = n with n ≥ 1 the run processes
at most n messages; for n = 0 the limit instead defaults to 10 (see the
counterexample), so the bound holds only from 1 up. -/
theorem totalProcessed_bounded_by_positive_maxEmails (env : WorkflowEnv)
    (n : Nat) (s : RunSummary) (hn : 1 ≤ n)
    (h : runPipeline env (some n) = Except.ok s) :
    s.totalProcessed ≤ n := by
  have ht := total_eq_classified env (some n) s h
  have hlen : (classifiedEmails env (some n)).length =
      (fetchEmailsStep env.mail (some n)).length := by
    simp [classifiedEmails, analyzeIntentStep]
  have hb := fetchEmailsStep_length_le env.mail (some n)
  have hj : jsOrDefault (some n) 10 = n := by
    unfold jsOrDefault
    have hne : n ≠ 0 := by omega
    simp [hne]
  omega

/-- Witness for C5's amended theorem: the scenario A run with
maxEmails = 3 processes at most 3 messages. -/
theorem totalProcessed_bounded_by_positive_maxEmails_witness :
    (1 ≤ 3 ∧ runPipeline scenarioAEnv (some 3) = Except.ok scenarioASummary) ∧
    scenarioASummary.totalProcessed ≤ 3 :=
  ⟨⟨by decide, rfl⟩,
    totalProcessed_bounded_by_positive_maxEmails scenarioAEnv 3 scenarioASummary
      (by decide) rfl⟩

/-! ### C7 -/

/-- Counterexample for C7: in scenario A (maxEmails = 3, messages
classified reply/archive/meeting, every collaborator call succeeding)
the meeting branch records the action tag meeting_processed, so the
claimed count meeting_scheduled = 1 is wrong: its count is 0. -/
theorem scenarioA_meeting_scheduled_counterexample :
    runResults scenarioAEnv (some 3) = Except.ok scenarioAResults ∧
    countOf (actionCounts scenarioAResults) "meeting_scheduled" = 0 ∧
    countOf (actionCounts scenarioAResults) "meeting_processed" = 1 :=
  ⟨rfl, rfl, rfl⟩

/-- C7 as amended: scenario A yields totalProcessed = 3 with action
counts reply_sent = 1, archived = 1 and meeting_processed = 1 (the
code's success tag for the meeting branch, in place of the claimed
meeting_scheduled). -/
theorem scenarioA_run_counts :
    runPipeline scenarioAEnv (some 3) = Except.ok scenarioASummary ∧
    scenarioASummary.totalProcessed = 3 ∧
    runResults scenarioAEnv (some 3) = Except.ok scenarioAResults ∧
    countOf (actionCounts scenarioAResults) "reply_sent" = 1 ∧
    countOf (actionCounts scenarioAResults) "archived" = 1 ∧
    countOf (actionCounts scenarioAResults) "meeting_processed" = 1 :=
  ⟨rfl, rfl, rfl, rfl, rfl, rfl⟩

/-! ### C8 -/

/-- A run with one message classified human_review whose mark-as-read
tool call throws (authorization failure happens before the tool's own
try/catch). -/
def c8Env : WorkflowEnv :=
  { mail := { unread := [⟨"m1", some "legal", "boss@x", "complex issue", none⟩],
              listFails := false },
    classify := fun _ => Except.ok ⟨Intent.human_review, "needs judgment"⟩,
    replyOk := fun _ => true,
    meetingAgentOk := fun _ => true,
    meetingMarkRead := fun _ => CallOutcome.ok,
    archiveCall := fun _ => CallOutcome.ok,
    reviewMarkRead := fun _ => CallOutcome.thrown }

/-- Counterexample for C8: humanReviewActionStep has no try/catch, so
when the mark-as-read tool call throws for a human_review message, the
step throws, no flag-only fallback result is produced, and the whole run
fails instead of returning success unconditionally. -/
theorem human_review_thrown_markRead_counterexample :
    runPipeline c8Env (some 1) = Except.error "authorize failed" ∧
    humanReviewActionStep c8Env.reviewMarkRead (classifiedEmails c8Env (some 1)) =
      Except.error "authorize failed" :=
  ⟨rfl, rfl⟩

/-- When no mark-as-read call throws, the human-review loop completes. -/
lemma humanReviewLoop_completes (markRead : EmailWithIntent → CallOutcome)
    (l : List EmailWithIntent) (h : ∀ e ∈ l, markRead e ≠ CallOutcome.thrown) :
    ∃ rs, humanReviewLoop markRead l = Except.ok rs := by
  induction l with
  | nil => exact ⟨[], rfl⟩
  | cons e rest ih =>
      obtain ⟨rs', hrs'⟩ := ih (fun x hx => h x (List.mem_cons_of_mem e hx))
      have he := h e (List.mem_cons_self e rest)
      cases ho : markRead e with
      | thrown => exact absurd ho he
      | ok =>
          exact ⟨⟨e.id, "flagged_for_review", "success"⟩ :: rs',
            by simp [humanReviewLoop, ho, markEmailAsReadTool, hrs']⟩
      | apiError =>
          exact ⟨⟨e.id, "flagged_for_review", "success"⟩ :: rs',
            by simp [humanReviewLoop, ho, markEmailAsReadTool, hrs']⟩

/-- C8 as amended: as long as no mark-as-read tool call throws —
including when the Gmail modify call fails and the tool returns success
false, which the step ignores — the human-review handler returns one
flagged_for_review/success result per human_review message and never
fails the pipeline; a thrown mark-as-read call, however, propagates (see
the counterexample). -/
theorem human_review_flags_unconditionally_when_markRead_returns
    (markRead : EmailWithIntent → CallOutcome) (emailsWithIntent : List EmailWithIntent)
    (h : ∀ e ∈ emailsWithIntent, markRead e ≠ CallOutcome.thrown) :
    ∃ rs, humanReviewActionStep markRead emailsWithIntent = Except.ok rs ∧
      rs.length = (emailsWithIntent.filter (fun e => e.intent = "human_review")).length ∧
      ∀ r ∈ rs, r.action = "flagged_for_review" ∧ r.status = "success" := by
  obtain ⟨rs, hrs⟩ := humanReviewLoop_completes markRead
    (emailsWithIntent.filter (fun e => e.intent = "human_review"))
    (fun e he => h e (List.mem_filter.mp he).1)
  exact ⟨rs, hrs, humanReviewLoop_ok_length _ _ _ hrs, humanReviewLoop_ok_mem _ _ _ hrs⟩

/-- A concrete human_review message whose mark-as-read Gmail call fails
at the API level (the tool catches it and returns success false). -/
def c8ApiFailEmail : EmailWithIntent :=
  ⟨"m2", some "odd", "y@x", "unclear", none, "human_review", "ambiguous"⟩

/-- Witness for C8's amended theorem: even when the mark-as-read API
call fails (without throwing), the handler still returns a single
flagged_for_review/success result. -/
theorem human_review_flags_unconditionally_witness :
    (∀ e ∈ [c8ApiFailEmail], (fun _ : EmailWithIntent => CallOutcome.apiError) e ≠
      CallOutcome.thrown) ∧
    (∃ rs, humanReviewActionStep (fun _ => CallOutcome.apiError) [c8ApiFailEmail] =
        Except.ok rs ∧
      rs.length = ([c8ApiFailEmail].filter (fun e => e.intent = "human_review")).length ∧
      ∀ r ∈ rs, r.action = "flagged_for_review" ∧ r.status = "success") :=
  ⟨by decide,
    human_review_flags_unconditionally_when_markRead_returns
      (fun _ => CallOutcome.apiError) [c8ApiFailEmail] (by decide)⟩

/-! ### Calendar model (calendarTools.ts)

Timestamps are milliseconds since a local-midnight epoch whose day 0 is
a Thursday, mirroring the JavaScript Date epoch (1970-01-01 was a
Thursday) with the local timezone taken as UTC and no DST. -/

/-- Milliseconds per day. -/
def msPerDay : Nat := 86400000

/-- The calendar day index of a timestamp. -/
def dayNumber (t : Nat) : Nat := t / msPerDay

/-- JavaScript Date.getDay: 0 = Sunday .. 6 = Saturday; day 0 of the
epoch is a Thursday (= 4). -/
def dayOfWeek (t : Nat) : Nat := (4 + dayNumber t) % 7

/-- JavaScript toDateString equality: same local calendar day. -/
def sameDate (a b : Nat) : Bool := dayNumber a = dayNumber b

/-- JavaScript date.setHours(h, 0, 0, 0): the timestamp of hour h on
date's own day. -/
def setHours (t h : Nat) : Nat := dayNumber t * msPerDay + h * 3600000

/-- A busy interval or an availability slot ({start, end}); the source
field `end` is a Lean keyword, so it is named `endTime` here. -/
structure TimeSlot where
  start : Nat
  endTime : Nat
deriving DecidableEq

/-- Stable ordered insert by slot start (the comparator
`(a, b) => a.start - b.start` of the Array.sort call). -/
def insertByStart (b : TimeSlot) : List TimeSlot → List TimeSlot
  | [] => [b]
  | c :: rest =>
      if b.start ≤ c.start then b :: c :: rest else c :: insertByStart b rest

/-- Stable sort by slot start. -/
def sortByStart : List TimeSlot → List TimeSlot
  | [] => []
  | b :: rest => insertByStart b (sortByStart rest)

/-- The inner for-loop of calculateAvailableSlots (calendarTools.ts lines
246-259): walk the day's busy slots, pushing a slot of exactly the
requested duration into each sufficiently large gap and advancing
currentSlotStart to the furthest busy end seen.  Returns the final
currentSlotStart together with the slots pushed. -/
def dayLoop (durMs : Nat) : List TimeSlot → Nat → Nat × List TimeSlot
  | [], s => (s, [])
  | b :: rest, s =>
      let pushed := if s < b.start ∧ durMs ≤ b.start - s then [⟨s, s + durMs⟩] else []
      let next := dayLoop durMs rest (max s b.endTime)
      (next.1, pushed ++ next.2)

/-- One iteration of the calculateAvailableSlots while-loop (lines
224-273): skip weekends; otherwise scan the busy slots whose start or
end falls on the current date (sorted by start) over the 09:00-17:00
working window, then add a final slot if enough time remains before
17:00. -/
def daySlots (current : Nat) (busySlots : List TimeSlot) (durMs : Nat) : List TimeSlot :=
  if dayOfWeek current = 0 ∨ dayOfWeek current = 6 then []
  else
    let dayStart := setHours current 9
    let dayEnd := setHours current 17
    let dayBusy := sortByStart (busySlots.filter
      (fun b => sameDate b.start current || sameDate b.endTime current))
    let looped := dayLoop durMs dayBusy dayStart
    looped.2 ++
      (if looped.1 < dayEnd ∧ durMs ≤ dayEnd - looped.1
       then [⟨looped.1, looped.1 + durMs⟩] else [])

/-- The number of iterations of the while-loop `while (currentDate <
endDate)` that advances by one day each pass. -/
def numDays (startDate endDate : Nat) : Nat :=
  (endDate - startDate + msPerDay - 1) / msPerDay

/-- calculateAvailableSlots (calendarTools.ts lines 213-276): iterate
day by day from startDate (keeping its time of day) while before
endDate, collecting each day's slots. -/
def calculateAvailableSlots (startDate endDate : Nat) (busySlots : List TimeSlot)
    (durationMinutes : Nat) : List TimeSlot :=
  ((List.range (numDays startDate endDate)).map
    (fun k => startDate + k * msPerDay)).flatMap
      (fun current => daySlots current busySlots (durationMinutes * 60000))

/-- The busy-conflict test of the hourly slot scan
(calendarTools.ts lines 404-408): `current < busyEnd && slotEnd > busyStart`. -/
def hasConflict (busy : List TimeSlot) (s e : Nat) : Bool :=
  busy.any (fun b => decide (s < b.endTime) && decide (b.start < e))

/-- The hourly slot scan of the second checkCalendarAvailabilityTool
variant (calendarTools.ts lines 398-418): hourly steps from the window
start, keeping each duration-long slot that fits in the window and has
no busy conflict. -/
def hourlySlots (current endTime durMs : Nat) (busy : List TimeSlot) : List TimeSlot :=
  if h : current < endTime then
    (if current + durMs ≤ endTime ∧ ¬ hasConflict busy current (current + durMs)
     then [⟨current, current + durMs⟩] else []) ++
      hourlySlots (current + 3600000) endTime durMs busy
  else []
termination_by endTime - current
decreasing_by simp [msPerDay] at *; omega

/-- The calendar collaborator's observable state for one
checkCalendarAvailabilityTool call: whether the authorize/freebusy query
chain throws, the busy intervals it reports, and the current time used
by the fallback branch. -/
structure CalendarEnv where
  queryFails : Bool
  busy : List TimeSlot
  now : Nat

/-- checkCalendarAvailabilityTool.execute (calendarTools.ts lines
362-442): on success return the hourly available slots and the busy
list; on any thrown error return the fabricated fallback of a single
free slot tomorrow 10:00-11:00 and an empty busy list. -/
def checkCalendarAvailabilityTool (env : CalendarEnv) (startDate endDate : Nat)
    (durationMinutes : Nat) : List TimeSlot × List TimeSlot :=
  if env.queryFails then
    ([⟨setHours (env.now + msPerDay) 10, setHours (env.now + msPerDay) 11⟩], [])
  else
    (hourlySlots startDate endDate (durationMinutes * 60000) env.busy, env.busy)

/-- The hour bonuses of the suggestMeetingTimesTool scoring at
calendarTools.ts lines 585-591: +0.1 for 10-11, +0.05 for 14-15. -/
def hourBonus2 (hour : Nat) : ℚ :=
  if 10 ≤ hour ∧ hour ≤ 11 then 1/10
  else if 14 ≤ hour ∧ hour ≤ 15 then 1/20
  else 0

/-- The slot confidence of the suggestMeetingTimesTool variant at
calendarTools.ts lines 575-607: baseline 0.9, minus 0.1 per day beyond
the first, plus the hour bonus, clamped by
Math.min(0.99, Math.max(0.1, c)).  The loop runs dayOffset from 1. -/
def confidenceScore2 (dayOffset hour : Nat) : ℚ :=
  min (99/100) (max (1/10) (9/10 - ((dayOffset : ℚ) - 1) * (1/10) + hourBonus2 hour))

/-- The hour bonuses of the other suggestMeetingTimesTool variant at
calendarTools.ts lines 185-207: +0.3 for 10-11, +0.2 for 14-15,
+0.1 for 9-16. -/
def hourBonus1 (hour : Nat) : ℚ :=
  if 10 ≤ hour ∧ hour ≤ 11 then 3/10
  else if 14 ≤ hour ∧ hour ≤ 15 then 1/5
  else if 9 ≤ hour ∧ hour ≤ 16 then 1/10
  else 0

/-- The weekday bonuses of that variant: +0.2 for Tuesday-Thursday
(getDay 2-4), +0.1 for Monday or Friday (getDay 1 or 5). -/
def dayBonus1 (dayIndex : Nat) : ℚ :=
  if 2 ≤ dayIndex ∧ dayIndex ≤ 4 then 1/5
  else if dayIndex = 1 ∨ dayIndex = 5 then 1/10
  else 0

/-- The slot confidence of the suggestMeetingTimesTool variant at
calendarTools.ts lines 185-207: baseline 0.5 plus hour and weekday
bonuses, clamped by Math.min(confidence, 1.0); it has no day-offset
penalty. -/
def confidenceScore1 (hour dayIndex : Nat) : ℚ :=
  min (1/2 + hourBonus1 hour + dayBonus1 dayIndex) 1

/-! ### Helper lemmas about the calendar model -/

/-- Characterization of the day index by timestamp bounds. -/
lemma dayNumber_eq_iff (t D : Nat) :
    dayNumber t = D ↔ D * msPerDay ≤ t ∧ t < (D + 1) * msPerDay := by
  unfold dayNumber msPerDay
  omega

/-- A timestamp in the upper part of a day has a time of day past 09:00. -/
lemma tod_ge_nine (t D : Nat) (h1 : D * msPerDay + 9 * 3600000 ≤ t)
    (h2 : t < (D + 1) * msPerDay) : 9 * 3600000 ≤ t % msPerDay := by
  unfold msPerDay at *
  omega

/-- Ordered insertion preserves membership. -/
lemma mem_insertByStart (b x : TimeSlot) (l : List TimeSlot) :
    x ∈ insertByStart b l ↔ x = b ∨ x ∈ l := by
  induction l with
  | nil => simp [insertByStart]
  | cons c rest ih =>
      by_cases h : b.start ≤ c.start
      · simp [insertByStart, h]
        try tauto
      · simp [insertByStart, h, ih]
        try tauto

/-- Sorting by start preserves membership. -/
lemma mem_sortByStart (x : TimeSlot) (l : List TimeSlot) :
    x ∈ sortByStart l ↔ x ∈ l := by
  induction l with
  | nil => simp [sortByStart]
  | cons b rest ih => simp [sortByStart, mem_insertByStart, ih]

/-- Invariant of the busy-gap walk: when every busy slot touches day D
(well-formed, start ≤ end) and the walk starts at or after 09:00 on day
D, the final currentSlotStart stays at or after 09:00 on day D and every
pushed slot has exactly the requested length and starts between 09:00 on
day D and the end of day D. -/
lemma dayLoop_spec (durMs D : Nat) (l : List TimeSlot) :
    (∀ b ∈ l, (dayNumber b.start = D ∨ dayNumber b.endTime = D) ∧ b.start ≤ b.endTime) →
    ∀ s0 : Nat, D * msPerDay + 9 * 3600000 ≤ s0 →
      D * msPerDay + 9 * 3600000 ≤ (dayLoop durMs l s0).1 ∧
      ∀ sl ∈ (dayLoop durMs l s0).2,
        sl.endTime = sl.start + durMs ∧
        D * msPerDay + 9 * 3600000 ≤ sl.start ∧ sl.start < (D + 1) * msPerDay := by
  induction l with
  | nil =>
      intro _ s0 hs0
      exact ⟨hs0, by simp [dayLoop]⟩
  | cons b rest ih =>
      intro hl s0 hs0
      have hb := hl b (List.mem_cons_self b rest)
      have ihr := ih (fun x hx => hl x (List.mem_cons_of_mem b hx)) (max s0 b.endTime)
        (le_trans hs0 (le_max_left _ _))
      refine ⟨?_, ?_⟩
      · have hfst : (dayLoop durMs (b :: rest) s0).1 =
            (dayLoop durMs rest (max s0 b.endTime)).1 := rfl
        rw [hfst]
        exact ihr.1
      · intro sl hsl
        simp only [dayLoop, List.mem_append] at hsl
        rcases hsl with hpush | hrec
        · by_cases hc : s0 < b.start ∧ durMs ≤ b.start - s0
          · simp only [hc, if_true] at hpush
            have hsl2 : sl = (⟨s0, s0 + durMs⟩ : TimeSlot) := by simpa using hpush
            subst hsl2
            refine ⟨rfl, hs0, ?_⟩
            show s0 < (D + 1) * msPerDay
            rcases hb.1 with hD | hD
            · have hbd := (dayNumber_eq_iff b.start D).mp hD
              unfold msPerDay at hbd hs0 ⊢
              omega
            · have hbd := (dayNumber_eq_iff b.endTime D).mp hD
              have hse := hb.2
              unfold msPerDay at hbd hs0 ⊢
              omega
          · simp [hc] at hpush
        · exact ihr.2 sl hrec

/-- Every slot one non-weekend day contributes has exactly the requested
length, lies on that day, and starts at or after 09:00 local time. -/
lemma daySlots_spec (current : Nat) (busySlots : List TimeSlot) (durMs : Nat)
    (hwf : ∀ b ∈ busySlots, b.start ≤ b.endTime)
    (sl : TimeSlot) (hsl : sl ∈ daySlots current busySlots durMs) :
    sl.endTime = sl.start + durMs ∧
    dayNumber sl.start = dayNumber current ∧
    dayOfWeek current ≠ 0 ∧ dayOfWeek current ≠ 6 ∧
    9 * 3600000 ≤ sl.start % msPerDay := by
  unfold daySlots at hsl
  by_cases hwk : dayOfWeek current = 0 ∨ dayOfWeek current = 6
  · simp [hwk] at hsl
  · simp only [hwk, if_false, List.mem_append] at hsl
    set dayBusy := sortByStart (busySlots.filter
      (fun b => sameDate b.start current || sameDate b.endTime current)) with hdb
    set s1 := (dayLoop durMs dayBusy (setHours current 9)).1 with hs1
    have hl : ∀ b ∈ dayBusy,
        (dayNumber b.start = dayNumber current ∨ dayNumber b.endTime = dayNumber current) ∧
          b.start ≤ b.endTime := by
      intro b hbmem
      rw [hdb] at hbmem
      have hbf := (mem_sortByStart b _).mp hbmem
      have hbq := List.mem_filter.mp hbf
      refine ⟨?_, hwf b hbq.1⟩
      have hdate := hbq.2
      simp [sameDate] at hdate
      tauto
    have hstart : dayNumber current * msPerDay + 9 * 3600000 ≤ setHours current 9 := by
      unfold setHours
      omega
    have hspec := dayLoop_spec durMs (dayNumber current) dayBusy hl (setHours current 9) hstart
    have hfin : dayNumber current * msPerDay + 9 * 3600000 ≤ s1 := hspec.1
    have hnwk := not_or.mp hwk
    rcases hsl with hmem | hmem
    · have h1 := hspec.2 sl hmem
      refine ⟨h1.1, ?_, hnwk.1, hnwk.2, ?_⟩
      · exact (dayNumber_eq_iff _ _).mpr ⟨by omega, h1.2.2⟩
      · exact tod_ge_nine sl.start (dayNumber current) h1.2.1 h1.2.2
    · by_cases hc : s1 < setHours current 17 ∧ durMs ≤ setHours current 17 - s1
      · simp only [hc, if_true] at hmem
        have hsl2 : sl = (⟨s1, s1 + durMs⟩ : TimeSlot) := by simpa using hmem
        subst hsl2
        have hend : setHours current 17 < (dayNumber current + 1) * msPerDay := by
          unfold setHours msPerDay
          omega
        have hlt : s1 < (dayNumber current + 1) * msPerDay := lt_trans hc.1 hend
        refine ⟨rfl, ?_, hnwk.1, hnwk.2, ?_⟩
        · refine (dayNumber_eq_iff _ _).mpr ⟨?_, hlt⟩
          show dayNumber current * msPerDay ≤ s1
          omega
        · exact tod_ge_nine s1 (dayNumber current) hfin hlt
      · simp [hc] at hmem

/-! ### C9 -/

/-- Busy slots for the first C9 run: a Monday (epoch day 4) with busy
intervals 10:00-18:00 and 19:00-20:00. -/
def c9BusyA : List TimeSlot := [⟨381600000, 410400000⟩, ⟨414000000, 417600000⟩]

/-- Busy slots for the second C9 run: one interval from Monday 23:00 to
Wednesday 01:00, fully covering the Tuesday in between. -/
def c9BusyB : List TimeSlot := [⟨428400000, 522000000⟩]

/-- Counterexample for C9.  First run (Monday, busy 10:00-18:00 and
19:00-20:00, duration 60): calculateAvailableSlots returns the slot
18:00-19:00, which starts and ends outside the 09:00-17:00 window.
Second run (Tuesday bounded by a busy interval Monday 23:00 - Wednesday
01:00, duration 60): the per-day busy filter matches only intervals
whose start or end date-string equals the current date, so the spanning
interval is ignored and the returned slot 09:00-10:00 overlaps it. -/
theorem calculateAvailableSlots_counterexample :
    ((⟨410400000, 414000000⟩ : TimeSlot) ∈
        calculateAvailableSlots 345600000 432000000 c9BusyA 60 ∧
      17 * 3600000 < 410400000 % msPerDay) ∧
    ((⟨464400000, 468000000⟩ : TimeSlot) ∈
        calculateAvailableSlots 432000000 518400000 c9BusyB 60 ∧
      (⟨428400000, 522000000⟩ : TimeSlot) ∈ c9BusyB ∧
      428400000 < 468000000 ∧ 464400000 < 522000000) :=
  ⟨⟨by decide, by decide⟩, by decide, by decide, by decide, by decide⟩

/-- C9 as amended: for well-formed busy intervals (start ≤ end), every
slot calculateAvailableSlots returns has length exactly the requested
duration, falls on a weekday (never Saturday or Sunday) and starts at or
after 09:00 local time on that day; the claimed upper bound of 17:00 and
the claimed absence of busy overlap do not hold (see the counterexample). -/
theorem available_slots_weekday_after_nine (startDate endDate durationMinutes : Nat)
    (busySlots : List TimeSlot) (hwf : ∀ b ∈ busySlots, b.start ≤ b.endTime)
    (sl : TimeSlot)
    (hsl : sl ∈ calculateAvailableSlots startDate endDate busySlots durationMinutes) :
    sl.endTime = sl.start + durationMinutes * 60000 ∧
    dayOfWeek sl.start ≠ 0 ∧ dayOfWeek sl.start ≠ 6 ∧
    9 * 3600000 ≤ sl.start % msPerDay := by
  unfold calculateAvailableSlots at hsl
  rcases List.mem_flatMap.mp hsl with ⟨current, hc, hins⟩
  have hds := daySlots_spec current busySlots (durationMinutes * 60000) hwf sl hins
  have hdw : dayOfWeek sl.start = dayOfWeek current := by
    unfold dayOfWeek
    rw [hds.2.1]
  refine ⟨hds.1, ?_, ?_, hds.2.2.2.2⟩
  · rw [hdw]; exact hds.2.2.1
  · rw [hdw]; exact hds.2.2.2.1

/-- Witness for C9's amended theorem: on a free Monday the first
returned slot is 09:00-10:00, one hour long, on a weekday, after 09:00. -/
theorem available_slots_weekday_after_nine_witness :
    (∀ b ∈ ([] : List TimeSlot), b.start ≤ b.endTime) ∧
    ((381600000 : Nat) = 378000000 + 60 * 60000 ∧
      dayOfWeek 378000000 ≠ 0 ∧ dayOfWeek 378000000 ≠ 6 ∧
      9 * 3600000 ≤ 378000000 % msPerDay) :=
  ⟨by decide,
    available_slots_weekday_after_nine 345600000 432000000 60 [] (by decide)
      ⟨378000000, 381600000⟩ (by decide)⟩

/-! ### C6 -/

/-- Counterexample for C6: under the scoring variant with the mid-week
bonus (calendarTools.ts lines 185-207), an otherwise-identical 10:00
slot moved one day further out, from Monday (getDay 1) to Tuesday
(getDay 2), receives a strictly higher confidence (0.9 versus 1.0), so
the scoring is not monotonically non-increasing in day-offset; the
variant that is monotone in day-offset (lines 575-607) has no mid-week
bonus at all, so neither variant follows the full claimed formula. -/
theorem slot_scoring_counterexample :
    confidenceScore1 10 1 < confidenceScore1 10 2 := by
  norm_num [confidenceScore1, hourBonus1, dayBonus1]

/-- C6 as amended: the day-offset scoring variant (calendarTools.ts
lines 575-607) is monotonically non-increasing in day-offset all else
equal, and every score it produces lies in [0, 1] (the clamp keeps it in
[0.1, 0.99]); it applies baseline 0.9, a 0.1 penalty per day beyond the
first and the mid-morning/mid-afternoon bonus, but no mid-week bonus. -/
theorem dayOffset_scoring_monotone_and_bounded (d d2 hour : Nat) (h : d ≤ d2) :
    confidenceScore2 d2 hour ≤ confidenceScore2 d hour ∧
    0 ≤ confidenceScore2 d hour ∧ confidenceScore2 d hour ≤ 1 := by
  refine ⟨?_, ?_, ?_⟩
  · unfold confidenceScore2
    have hc : ((d : ℚ)) ≤ (d2 : ℚ) := by exact_mod_cast h
    have hinner : 9/10 - ((d2 : ℚ) - 1) * (1/10) + hourBonus2 hour ≤
        9/10 - ((d : ℚ) - 1) * (1/10) + hourBonus2 hour := by linarith
    exact min_le_min (le_refl _) (max_le_max (le_refl _) hinner)
  · unfold confidenceScore2
    exact le_min (by norm_num) (le_trans (by norm_num) (le_max_left _ _))
  · exact le_trans (min_le_left _ _) (by norm_num)

/-- Witness for C6's amended theorem at day offsets 1 and 2, hour 10. -/
theorem dayOffset_scoring_monotone_and_bounded_witness :
    (1 ≤ 2) ∧
    (confidenceScore2 2 10 ≤ confidenceScore2 1 10 ∧
      0 ≤ confidenceScore2 1 10 ∧ confidenceScore2 1 10 ≤ 1) :=
  ⟨by decide, dayOffset_scoring_monotone_and_bounded 1 2 10 (by decide)⟩

/-! ### C10 -/

/-- The hourly scan stops at the end of the window. -/
lemma hourlySlots_stop (c e d : Nat) (b : List TimeSlot) (h : e ≤ c) :
    hourlySlots c e d b = [] := by
  rw [hourlySlots]
  simp [Nat.not_lt.mpr h]

/-- On an empty busy list, a window of exactly one hour with a one-hour
duration yields the single slot covering the window. -/
lemma hourlySlots_exact_hour (s : Nat) :
    hourlySlots s (s + 3600000) 3600000 [] = [⟨s, s + 3600000⟩] := by
  rw [hourlySlots]
  simp [hasConflict, hourlySlots_stop]

/-- C10: when the free/busy query chain throws, the availability tool
neither propagates the error nor returns an empty result: it fabricates
exactly one available slot, tomorrow 10:00-11:00, with an empty busy
list — the very output a successful call on a genuinely free calendar
produces for that window, so the caller cannot distinguish the two. -/
theorem calendar_failure_fabricates_free_slot (env : CalendarEnv)
    (startDate endDate durationMinutes : Nat) (h : env.queryFails = true) :
    checkCalendarAvailabilityTool env startDate endDate durationMinutes =
      ([⟨setHours (env.now + msPerDay) 10, setHours (env.now + msPerDay) 11⟩], []) ∧
    (checkCalendarAvailabilityTool env startDate endDate durationMinutes).1.length = 1 ∧
    checkCalendarAvailabilityTool env startDate endDate durationMinutes =
      checkCalendarAvailabilityTool ⟨false, [], env.now⟩
        (setHours (env.now + msPerDay) 10) (setHours (env.now + msPerDay) 11) 60 := by
  have h1 : checkCalendarAvailabilityTool env startDate endDate durationMinutes =
      ([⟨setHours (env.now + msPerDay) 10, setHours (env.now + msPerDay) 11⟩], []) := by
    simp [checkCalendarAvailabilityTool, h]
  have h11 : setHours (env.now + msPerDay) 11 = setHours (env.now + msPerDay) 10 + 3600000 := by
    unfold setHours
    omega
  refine ⟨h1, by rw [h1]; rfl, ?_⟩
  rw [h1]
  show _ = (hourlySlots (setHours (env.now + msPerDay) 10) (setHours (env.now + msPerDay) 11)
    (60 * 60000) [], [])
  rw [h11]
  rw [show (60 * 60000 : Nat) = 3600000 from rfl]
  rw [hourlySlots_exact_hour]

/-- Witness for C10 at a concrete failing environment. -/
theorem calendar_failure_fabricates_free_slot_witness :
    (⟨true, [], 0⟩ : CalendarEnv).queryFails = true ∧
    (checkCalendarAvailabilityTool ⟨true, [], 0⟩ 500 900 30 =
        ([⟨setHours (0 + msPerDay) 10, setHours (0 + msPerDay) 11⟩], []) ∧
      (checkCalendarAvailabilityTool ⟨true, [], 0⟩ 500 900 30).1.length = 1 ∧
      checkCalendarAvailabilityTool ⟨true, [], 0⟩ 500 900 30 =
        checkCalendarAvailabilityTool ⟨false, [], 0⟩
          (setHours (0 + msPerDay) 10) (setHours (0 + msPerDay) 11) 60) :=
  ⟨rfl, calendar_failure_fabricates_free_slot ⟨true, [], 0⟩ 500 900 30 rfl⟩
